import Mathlib

/-!
Verification development for the WATCHBILL_CDS7 watch-scheduling core.

The definitions below are a shallow embedding of the Python sources:
`src/month_vector_generator.py`, `src/watchstander.py`, `src/month.py`,
`src/watchbill_model.py` and the tables in `src/constants.py`.
Python floats are modelled as rationals (`ℚ`), Python lists as `List`,
Python dicts as association lists looked up from the front (so that
assignment-by-key is modelled by prepending a binding), and raising code
as `Except String` / `Option` values.
-/

/-! ## Calendar arithmetic (`month_vector_generator.py`) -/

/-- Gregorian leap-year test, as `calendar.monthrange` uses. -/
def isLeapYear (y : Int) : Bool :=
  (y % 4 == 0 && y % 100 != 0) || (y % 400 == 0)

/-- Number of days in a month, as `calendar.monthrange(year, month)[1]`. -/
def daysInMonth (y m : Int) : Nat :=
  if m = 1 ∨ m = 3 ∨ m = 5 ∨ m = 7 ∨ m = 8 ∨ m = 10 ∨ m = 12 then 31
  else if m = 2 then (if isLeapYear y then 29 else 28)
  else 30

/-- `datetime.date(y, m, d).weekday()`: Monday = 0 … Sunday = 6.
Computed with Zeller's congruence (`h`: 0 = Saturday), then shifted. -/
def pythonWeekday (y m : Int) (d : Nat) : Nat :=
  let mm : Int := if m ≤ 2 then m + 12 else m
  let yy : Int := if m ≤ 2 then y - 1 else y
  let K : Int := yy % 100
  let J : Int := yy / 100
  let h : Int := ((d : Int) + (13 * (mm + 1)) / 5 + K + K / 4 + J / 4 + 5 * J) % 7
  ((h + 5) % 7).toNat

/-- The ascending `while` searches in `get_federal_holidays` (MLK, Presidents,
Labor, Columbus, Thanksgiving): each loop increments from day 1 and stops at
the first day whose weekday matches (the day-cap in the loop condition is
never the binding constraint, since a matching weekday occurs in days 1–7),
so each computes the FIRST such weekday of the month. -/
def firstWeekdayOfMonth (y m : Int) (wd : Nat) : Nat :=
  match (List.range 7).find? (fun i => pythonWeekday y m (i + 1) == wd) with
  | some i => i + 1
  | none => 1

/-- The descending `while` for Memorial Day: last Monday of May. -/
def lastMondayOfMay (y : Int) : Nat :=
  match (List.range 7).find? (fun i => pythonWeekday y 5 (31 - i) == 0) with
  | some i => 31 - i
  | none => 31

/-- `get_federal_holidays(year)` as a list of (month, day) pairs.  Python
builds a `set` (arbitrary iteration order, duplicates collapsed); we keep
insertion order and drop duplicates, which matches the set's contents. -/
def federalHolidays (y : Int) : List (Int × Nat) :=
  let l : List (Int × Nat) :=
    [(1, 1), (1, firstWeekdayOfMonth y 1 0), (2, firstWeekdayOfMonth y 2 0),
     (5, lastMondayOfMay y), (6, 19), (7, 4), (9, firstWeekdayOfMonth y 9 0),
     (10, firstWeekdayOfMonth y 10 0), (11, 11), (11, firstWeekdayOfMonth y 11 3),
     (12, 25)]
  l.foldl (fun acc d => if d ∈ acc then acc else acc ++ [d]) []

/-- Default weekday coding of `generate_month_vector` (lines 71–79):
Mon–Thu → 0, Fri → 1, Sat → 2, Sun → 3. -/
def baseVector (y m : Int) : List Nat :=
  (List.range (daysInMonth y m)).map (fun i =>
    let wd := pythonWeekday y m (i + 1)
    if wd < 4 then 0 else if wd = 4 then 1 else if wd = 5 then 2 else 3)

/-- Custom days-off pass (lines 81–83): force code 2 for listed days-of-month. -/
def applyDaysOff (daysOff : List Nat) (v : List Nat) : List Nat :=
  (v.enum).map (fun p => if (p.1 + 1) ∈ daysOff then 2 else p.2)

/-- The adjustment body shared verbatim by the Thursday (lines 90–95),
Friday (97–102) and Monday (104–109) holiday branches:
`v[idx-1] = 1` (guarded), `v[idx] = 2`, `v[idx+1] = 2` (guarded). -/
def stdAdjust (v : List Nat) (idx : Nat) : List Nat :=
  let v1 := if 1 ≤ idx then v.set (idx - 1) 1 else v
  let v2 := v1.set idx 2
  if idx + 1 < v2.length then v2.set (idx + 1) 2 else v2

/-- The Tuesday holiday branch (lines 111–118): index `idx - 1` is written
twice — first 1, then (same guard repeated) 2 — then `v[idx] = 2` and the
guarded `v[idx+1] = 2`. -/
def tueAdjust (v : List Nat) (idx : Nat) : List Nat :=
  let v1 := if 1 ≤ idx then v.set (idx - 1) 1 else v
  let v1b := if 1 ≤ idx then v1.set (idx - 1) 2 else v1
  let v2 := v1b.set idx 2
  if idx + 1 < v2.length then v2.set (idx + 1) 2 else v2

/-- One federal-holiday adjustment (lines 89–118), for a holiday at 0-based
index `idx` with Python weekday `wd`: the weekday dispatch of the source's
elif chain (Thursday 3, Friday 4, Monday 0, Tuesday 1; other weekdays get
no adjustment). -/
def applyHoliday (v : List Nat) (idx wd : Nat) : List Nat :=
  if wd = 3 then stdAdjust v idx
  else if wd = 4 then stdAdjust v idx
  else if wd = 0 then stdAdjust v idx
  else if wd = 1 then tueAdjust v idx
  else v

/-- The per-holiday step of the loop at lines 85–118: the holiday must fall in
the target month and its 0-based index must be inside the vector
(`0 <= idx < len`; `idx ≥ 0` is automatic because the day is ≥ 1). -/
def holidayStep (y m : Int) (v : List Nat) (h : Int × Nat) : List Nat :=
  if h.1 = m then
    if h.2 - 1 < v.length then applyHoliday v (h.2 - 1) (pythonWeekday y m h.2) else v
  else v

/-- The whole federal-holiday pass. -/
def applyHolidays (y m : Int) (hs : List (Int × Nat)) (v : List Nat) : List Nat :=
  hs.foldl (holidayStep y m) v

/-- The hard-coded return for February 2025 (line 63). -/
def hardcodedFeb2025 : List Nat :=
  [2, 3, 0, 0, 0, 0, 1, 2, 3, 0, 0, 0, 0, 1, 2, 3, 0, 0, 0, 0, 1, 2, 3, 0, 0, 0, 0, 1]

/-- `generate_month_vector(year, month, days_off)` (lines 53–119). -/
def generate_month_vector (y m : Int) (daysOff : List Nat) : List Nat :=
  if y = 2025 ∧ m = 2 then hardcodedFeb2025
  else applyHolidays y m (federalHolidays y) (applyDaysOff daysOff (baseVector y m))

/-- Derived bookkeeping: the 0-based indices that `applyHoliday` assigns for a
holiday at index `idx` with weekday `wd` in a vector of length `len`. -/
def holidayWriteIdxs (len idx wd : Nat) : List Nat :=
  if wd = 3 ∨ wd = 4 ∨ wd = 0 ∨ wd = 1 then
    (if 1 ≤ idx then [idx - 1] else []) ++ [idx] ++
      (if idx + 1 < len then [idx + 1] else [])
  else []

/-- Indices written by one guarded holiday step. -/
def stepWriteIdxs (y m : Int) (len : Nat) (h : Int × Nat) : List Nat :=
  if h.1 = m then
    if h.2 - 1 < len then holidayWriteIdxs len (h.2 - 1) (pythonWeekday y m h.2) else []
  else []

/-- All indices written by the federal-holiday pass of
`generate_month_vector y m`. -/
def holidayWrites (y m : Int) : List Nat :=
  (federalHolidays y).flatMap (stepWriteIdxs y m (daysInMonth y m))

-- sanity checks of the calendar arithmetic (known dates)
example : pythonWeekday 2000 1 1 = 5 := by decide
example : pythonWeekday 2025 11 1 = 5 := by decide
example : pythonWeekday 2025 11 11 = 1 := by decide
example : pythonWeekday 2024 7 4 = 3 := by decide
example : daysInMonth 2024 2 = 29 := by decide
example : daysInMonth 2023 2 = 28 := by decide

/-! ## Point values (`constants.py`, VALUE_KEY) -/

/-- VALUE_KEY["Weekday day watch"] -/
def vkWeekdayDay : ℚ := 10
/-- VALUE_KEY["Weekday night watch"] -/
def vkWeekdayNight : ℚ := 12
/-- VALUE_KEY["Friday day watch"] -/
def vkFridayDay : ℚ := 18
/-- VALUE_KEY["Friday night/Saturday/Sunday day"] -/
def vkWeekendAny : ℚ := 36
/-- VALUE_KEY["Sunday night"] -/
def vkSundayNight : ℚ := 20
/-- VALUE_KEY["Expected N-Head watch monthly (one weekday and one weekend)"] -/
def vkNHeadMonthly : ℚ := 28
/-- VALUE_KEY["Working hour"] -/
def vkWorkingHour : ℚ := 3 / 4
/-- VALUE_KEY["Off duty hour"] -/
def vkOffDutyHour : ℚ := 1
/-- VALUE_KEY["Weekend/Holiday Hour"] -/
def vkWeekendHour : ℚ := 3

/-! ## Watchstander (`watchstander.py`) -/

/-- A Python dict key of `Watchstander.availability_vectors`:
`set_monthly_availability` stores under the TUPLE `(year, month)`,
while `calculate_monthly_availability` looks up the STRING "YYYY-MM". -/
inductive PyKey where
  | tup (y m : Int)
  | str (s : String)
deriving DecidableEq

/-- `Watchstander` state: the fields the core calculations read.
`availability_vectors` is the dict keyed by `PyKey`; `watch_percentage`
defaults to 1.0 in `__init__`. -/
structure Watchstander where
  name : String
  is_n_head : Bool
  availability_vectors : List (PyKey × List Nat)
  watch_percentage : ℚ
deriving DecidableEq

/-- `set_monthly_availability(year, month, vector)`: dict assignment at the
tuple key `(year, month)`.  (The `_save_to_db` side effect is external I/O.) -/
def Watchstander.set_monthly_availability (ws : Watchstander) (y m : Int)
    (v : List Nat) : Watchstander :=
  { ws with availability_vectors :=
      (PyKey.tup y m, v) ::
        ws.availability_vectors.filter (fun p => p.1 != PyKey.tup y m) }

/-- Zero-pad a decimal string to width `w` (Python `{:0wd}` for nonneg ints). -/
def zpad (w : Nat) (s : String) : String :=
  if s.length < w then String.mk (List.replicate (w - s.length) '0') ++ s else s

/-- The f-string key `f"{year:04d}-{month:02d}"` used at `watchstander.py:41`. -/
def monthKeyStr (y m : Int) : String :=
  zpad 4 (toString y) ++ "-" ++ zpad 2 (toString m)

/-- `calculate_monthly_availability(year, month)` (`watchstander.py` lines
36–50): looks up the STRING key; counts codes in {0,4,5,6,7,8,9} as
available.  Returns (available_days, total_days, availability_percentage). -/
def Watchstander.calculate_monthly_availability (ws : Watchstander) (y m : Int) :
    Nat × Nat × ℚ :=
  match List.lookup (PyKey.str (monthKeyStr y m)) ws.availability_vectors with
  | none => (0, 0, 0)
  | some vector =>
    let total_days := vector.length
    let available_days :=
      (vector.filter (fun d =>
        d == 0 || d == 4 || d == 5 || d == 6 || d == 7 || d == 8 || d == 9)).length
    let pct : ℚ :=
      if 0 < total_days then (available_days : ℚ) / (total_days : ℚ) * 100 else 0
    (available_days, total_days, pct)

/-! ## Month (`month.py`) -/

/-- `Month` state.  `watchstanders` models the insertion-ordered dict
name → Watchstander (names are the keys); `actual_watch_points` the dict
name → float; `month_vector` is produced by `generate_month_vector` in
`__init__`. -/
structure Month where
  year : Int
  month : Int
  watchstanders : List Watchstander
  actual_watch_points : List (String × ℚ)
  month_vector : List Nat
  days_in_month : Nat

/-- `Month.__init__(year, month)` (lines 15–29). -/
def Month.init (y m : Int) : Month :=
  ⟨y, m, [], [], generate_month_vector y m [], daysInMonth y m⟩

/-- `ws.availability_vectors.get((self.year, self.month), [])` as used
throughout `calculate_expected_watch_points`. -/
def Month.getVector (mo : Month) (ws : Watchstander) : List Nat :=
  (List.lookup (PyKey.tup mo.year mo.month) ws.availability_vectors).getD []

/-- The pool loop of `Month.calculate_expected_watch_points` (lines 154–163):
note the day-type-2 (weekend) branch adds only
VALUE_KEY["Friday night/Saturday/Sunday day"] once. -/
def total_monthly_points (mv : List Nat) : ℚ :=
  mv.foldl (fun acc d =>
    if d = 0 then acc + (vkWeekdayDay + vkWeekdayNight)
    else if d = 1 then acc + (vkFridayDay + vkWeekendAny)
    else if d = 2 then acc + vkWeekendAny
    else if d = 3 then acc + (vkWeekendAny + vkSundayNight)
    else acc) 0

/-- The inline availability percentage of `calculate_expected_watch_points`
(lines 172–174, 186–188, 198–200): `sum(1 for day in v if day > 0) / len(v)`,
0 when the vector is empty. -/
def codeAvailPct (v : List Nat) : ℚ :=
  let total_days := v.length
  let available_days := (v.filter (fun d => 0 < d)).length
  if 0 < total_days then (available_days : ℚ) / (total_days : ℚ) else 0

/-- The N-head contribution of one watchstander (lines 170–175 and 196–203):
availability percentage × 28.0 when the vector is nonempty, else 0. -/
def nHeadTerm (mo : Month) (ws : Watchstander) : ℚ :=
  if mo.getVector ws = [] then 0 else codeAvailPct (mo.getVector ws) * vkNHeadMonthly

/-- One regular watchstander's weight (lines 184–189):
availability percentage × watch_percentage when the vector is nonempty. -/
def regWeight (mo : Month) (ws : Watchstander) : ℚ :=
  if mo.getVector ws = [] then 0 else codeAvailPct (mo.getVector ws) * ws.watch_percentage

/-- `n_head_points` (lines 166–175). -/
def Month.n_head_points (mo : Month) : ℚ :=
  (mo.watchstanders.map (fun ws => if ws.is_n_head then nHeadTerm mo ws else 0)).sum

/-- `total_watch_percentage` (lines 181–189). -/
def Month.total_watch_percentage (mo : Month) : ℚ :=
  (mo.watchstanders.map (fun ws => if ws.is_n_head then 0 else regWeight mo ws)).sum

/-- `remaining_points = total_monthly_points - n_head_points` (line 178). -/
def Month.remaining_points (mo : Month) : ℚ :=
  total_monthly_points mo.month_vector - mo.n_head_points

/-- One watchstander's expected points (lines 193–214). -/
def expectedFor (mo : Month) (ws : Watchstander) : ℚ :=
  if ws.is_n_head then nHeadTerm mo ws
  else if mo.getVector ws ≠ [] ∧ 0 < mo.total_watch_percentage then
    codeAvailPct (mo.getVector ws) * ws.watch_percentage / mo.total_watch_percentage
      * mo.remaining_points
  else 0

/-- `Month.calculate_expected_watch_points` (lines 151–241): the returned
dict name → expected points, in roster order.  (The loop's side effects —
recomputing actual points and `update_points_deviation` — do not affect the
returned mapping and are omitted.) -/
def Month.calculate_expected_watch_points (mo : Month) : List (String × ℚ) :=
  mo.watchstanders.map (fun ws => (ws.name, expectedFor mo ws))

/-- `Month.calculate_total_availability` (lines 136–149): the returned dict
name → available_days, via `Watchstander.calculate_monthly_availability`. -/
def Month.calculate_total_availability (mo : Month) : List (String × Nat) :=
  mo.watchstanders.map (fun ws =>
    (ws.name, (ws.calculate_monthly_availability mo.year mo.month).1))

/-- The deviation record built at `month.py` lines 108–109 from one person's
(expected, actual): `(deviation, deviation_percentage)` where the percentage
is `deviation / expected * 100` if `expected > 0` else 0.0. -/
def deviationRecordQ (expected actual : ℚ) : ℚ × ℚ :=
  (expected - actual,
   if 0 < expected then (expected - actual) / expected * 100 else 0)

/-- `name = ws.name` at `month.py:104`, where `ws` ranges over
`self.watchstanders` — i.e. over the DICT KEYS, which are strings; attribute
access `.name` on a `str` raises AttributeError. -/
def pyStrAttrName (s : String) : Except String String :=
  Except.error "AttributeError: str object has no attribute name"

/-- Python dict subscript `d[k]` raising KeyError when absent. -/
def dictGetE (d : List (String × ℚ)) (k : String) : Except String ℚ :=
  match List.lookup k d with
  | some v => Except.ok v
  | none => Except.error "KeyError"

/-- `Month.evaluate_watch_deviations` (lines 91–118).  The `for ws in
self.watchstanders` loop iterates the dict, hence its keys (names); the
first loop iteration executes `name = ws.name` on a string and raises. -/
def Month.evaluate_watch_deviations (mo : Month) :
    Except String (List (String × (ℚ × ℚ × ℚ × ℚ))) := do
  let expected_points := mo.calculate_expected_watch_points
  (mo.watchstanders.map (fun w => w.name)).mapM (fun ws => do
    let name ← pyStrAttrName ws
    let expected ← dictGetE expected_points name
    let actual := (List.lookup name mo.actual_watch_points).getD 0
    let r := deviationRecordQ expected actual
    pure (name, (expected, actual, r.1, r.2)))

/-- `Month.get_month_summary` (lines 243–263): computes the deviations first
(line 252), then assembles the summary dict; we keep the fields the claims
are about (availability, expected_points, deviations). -/
def Month.get_month_summary (mo : Month) :
    Except String
      (List (String × Nat) × List (String × ℚ) × List (String × (ℚ × ℚ × ℚ × ℚ))) := do
  let deviations ← mo.evaluate_watch_deviations
  pure (mo.calculate_total_availability, mo.calculate_expected_watch_points, deviations)

/-! ## Pool computations of the sibling implementations, and the spec's pool -/

/-- The pool loop of `Watchstander.calculate_expected_watch_points`
(`watchstander.py` lines 85–94): weekend days add 36 + 36. -/
def watchstanderPool (mv : List Nat) : ℚ :=
  mv.foldl (fun acc d =>
    if d = 0 then acc + (vkWeekdayDay + vkWeekdayNight)
    else if d = 1 then acc + (vkFridayDay + vkWeekendAny)
    else if d = 2 then acc + (vkWeekendAny + vkWeekendAny)
    else if d = 3 then acc + (vkWeekendAny + vkSundayNight)
    else acc) 0

/-- `WatchbillModel.calculate_total_watch_points` (`watchbill_model.py`
lines 164–176). -/
def watchbillModelPool (mv : List Nat) : ℚ :=
  mv.foldl (fun acc d =>
    if d = 0 then acc + (vkWeekdayDay + vkWeekdayNight)
    else if d = 1 then acc + (vkFridayDay + vkWeekdayNight)
    else if d = 2 then acc + (vkWeekendAny + vkSundayNight)
    else if d = 3 then acc + (vkSundayNight + vkWeekdayDay)
    else acc) 0

/-- Modelled from the spec: `MonthlyPool(calendar)` sums the DAY-shift plus
NIGHT-shift value of the §4.2 table for every day — 10+12 for WORKDAY,
18+36 for PRE_WEEKEND, 36+36 for WEEKEND, 36+20 for POST_WEEKEND. -/
def monthlyPool_spec (mv : List Nat) : ℚ :=
  mv.foldl (fun acc d =>
    if d = 0 then acc + (10 + 12)
    else if d = 1 then acc + (18 + 36)
    else if d = 2 then acc + (36 + 36)
    else if d = 3 then acc + (36 + 20)
    else acc) 0

/-! ## WatchbillModel (`watchbill_model.py`) -/

/-- Python list subscript `l[i]`, raising IndexError when out of range. -/
def getElemE {α : Type} (l : List α) (i : Nat) : Except String α :=
  match l.get? i with
  | some x => Except.ok x
  | none => Except.error "IndexError: list index out of range"

/-- Python float division, raising ZeroDivisionError on a zero divisor. -/
def pydiv (a b : ℚ) : Except String ℚ :=
  if b = 0 then Except.error "ZeroDivisionError: division by zero"
  else Except.ok (a / b)

/-- `WatchbillModel` state: the month vector and the watchstander list. -/
structure WModel where
  month_vector : List Nat
  watchstanders : List Watchstander

/-- A Python loop that builds a list element by element, propagating the
first raised exception: the effectful map used by the embeddings below. -/
def mapE {ε α β : Type} (f : α → Except ε β) : List α → Except ε (List β)
  | [] => Except.ok []
  | a :: l => do
    let b ← f a
    let bs ← mapE f l
    pure (b :: bs)

/-- `WatchbillModel.monthly_total` (lines 17–29): per-day shift points from
the hour weights; raises ValueError on an invalid month-vector entry. -/
def monthly_total (mv : List Nat) : Except String (List ℚ) :=
  mapE (fun day =>
    if day = 0 then Except.ok (16 * vkOffDutyHour + 8 * vkWorkingHour)
    else if day = 1 then Except.ok (8 * vkOffDutyHour + 8 * vkWorkingHour + 8 * vkWeekendHour)
    else if day = 2 ∨ day = 3 then Except.ok (24 * vkWeekendHour)
    else Except.error "ValueError: Invalid input in month vector") mv

/-- `WatchbillModel.monthly_total_score` (lines 31–33). -/
def monthly_total_score (mv : List Nat) : Except String ℚ := do
  let mt ← monthly_total mv
  pure mt.sum

/-- `WatchbillModel.personnel_availability_vector` (lines 35–46). -/
def personnel_availability_vector (mv : List Nat) (availability : List Nat) :
    Except String (List ℚ) := do
  let mt ← monthly_total mv
  mapE (fun i => do
    let avail ← getElemE availability i
    if avail = 0 ∨ avail = 4 ∨ avail = 5 ∨ avail = 6 then getElemE mt i
    else if avail = 1 ∨ avail = 2 ∨ avail = 3 ∨ avail = 7 then pure 0
    else Except.error "ValueError: Invalid input in availability vector")
    (List.range availability.length)

/-- `WatchbillModel.expected_watch_vector` (lines 66–79): note the final
division by `command_availability` (line 78) raises ZeroDivisionError when
the summed availability is zero. -/
def expected_watch_vector (mv : List Nat) (matrix : List (List Nat)) :
    Except String (List ℚ) := do
  let _mt ← monthly_total mv
  let mtw ← monthly_total_score mv
  let wav ← mapE (fun row => do
    let ov ← personnel_availability_vector mv row
    pure ov.sum) matrix
  let ca := wav.sum
  mapE (fun w => do
    let q ← pydiv w ca
    pure (q * mtw)) wav

/-- Python short-circuit `guard and a[j] == target`: the subscript is only
evaluated when `guard` holds; an out-of-range access propagates as `none`. -/
def boolAt (a : List Nat) (guard : Bool) (j target : Nat) : Option Bool :=
  if guard then (a.get? j).map (fun x => x == target) else some false

/-- The body of `WatchbillModel.watchbill_availability`'s loop (lines 51–63)
for index `i` with current status `avail`; `i < len(a) - 1` is rendered as
`i + 1 < a.length` (equivalent for the nonempty lists the loop runs on). -/
def eligibilityAt (a : List Nat) (i avail : Nat) : Option Nat := do
  if avail = 1 ∨ avail = 2 ∨ avail = 3 ∨ avail = 4 ∨ avail = 5 ∨ avail = 7 then
    pure 0
  else
    let p3 ← boolAt a (0 < i) (i - 1) 3
    let n1 ← boolAt a (i + 1 < a.length) (i + 1) 1
    if p3 || n1 then pure 0
    else
      let p6 ← boolAt a (0 < i) (i - 1) 6
      if p6 && (avail == 0) then pure 2
      else
        let n4 ← boolAt a (avail == 0 && i + 1 < a.length) (i + 1) 4
        if n4 then pure 1
        else
          let p0 ← boolAt a (0 < i && avail == 0 && i + 1 < a.length) (i - 1) 0
          let n0 ← boolAt a (0 < i && avail == 0 && i + 1 < a.length) (i + 1) 0
          if p0 && n0 then pure 3 else pure 0

/-- `WatchbillModel.watchbill_availability` (lines 48–64): the enumerate
loop, index paired with the element it yields. -/
def watchbill_availability (a : List Nat) : Option (List Nat) :=
  (List.range a.length).mapM (fun i => do
    let avail ← a.get? i
    eligibilityAt a i avail)

/-- The "unavailable" status set used by rules 2–5 (lines 123/130/137/144). -/
def unavailCode (c : Nat) : Bool :=
  c == 1 || c == 2 || c == 3 || c == 4 || c == 5 || c == 7

/-- `WatchbillModel.evaluate_watchbill` (lines 108–162): collects advisory
feedback strings rule by rule, then returns `{"score": 0, "feedback": …}`.
Any Python exception along the way (IndexError, ValueError,
ZeroDivisionError) propagates as `Except.error`. -/
def evaluate_watchbill (model : WModel) (watchbill : List (List Nat)) :
    Except String (ℚ × List String) := do
  -- Rule 1 (lines 114–118)
  let fb1 ← mapE (fun i => do
    let person ← getElemE model.watchstanders i
    if person.is_n_head then do
      let row ← getElemE watchbill i
      let msgs ← mapE (fun j => do
        let watch ← getElemE row j
        if watch = 1 then do
          let d ← getElemE model.month_vector j
          if d ≠ 0 then
            pure [("Rule 1 violation: " ++ person.name ++
                   " assigned day watch on non-workday.")]
          else pure []
        else pure ([] : List String)) (List.range row.length)
      pure msgs.flatten
    else pure ([] : List String)) (List.range model.watchstanders.length)
  -- Rule 2 (lines 121–125)
  let fb2 ← mapE (fun person => do
    let msgs ← mapE (fun j => do
      let watch ← getElemE person j
      if 0 < j then do
        let prev ← getElemE person (j - 1)
        if unavailCode prev ∧ watch ≠ 0 then
          pure ["Rule 2 violation: Watch scheduled before leave/TDY/special liberty."]
        else pure []
      else pure ([] : List String)) (List.range person.length)
    pure msgs.flatten) watchbill
  -- Rule 3 (lines 128–132)
  let fb3 ← mapE (fun person => do
    let msgs ← mapE (fun j => do
      let watch ← getElemE person j
      if 1 < j then do
        let prev2 ← getElemE person (j - 2)
        if unavailCode prev2 ∧ watch = 1 then
          pure ["Rule 3 violation: Day watch scheduled two days before leave/TDY/special liberty."]
        else pure []
      else pure ([] : List String)) (List.range person.length)
    pure msgs.flatten) watchbill
  -- Rule 4 (lines 135–139)
  let fb4 ← mapE (fun person => do
    let msgs ← mapE (fun j => do
      let watch ← getElemE person j
      if j + 1 < person.length then do
        let next ← getElemE person (j + 1)
        if unavailCode next ∧ watch ≠ 0 then
          pure ["Rule 4 violation: Watch scheduled after leave/TDY/special liberty."]
        else pure []
      else pure ([] : List String)) (List.range person.length)
    pure msgs.flatten) watchbill
  -- Rule 5 (lines 142–146)
  let fb5 ← mapE (fun person => do
    let msgs ← mapE (fun j => do
      let watch ← getElemE person j
      if j + 1 < person.length then do
        let next ← getElemE person (j + 1)
        if unavailCode next ∧ watch = 1 then
          pure ["Rule 5 violation: Day watch scheduled the day after leave/TDY/special liberty."]
        else pure []
      else pure ([] : List String)) (List.range person.length)
    pure msgs.flatten) watchbill
  -- Rule 6 (lines 148–153): feeds the WATCHBILL grid to expected_watch_vector
  let expected_watch ← expected_watch_vector model.month_vector watchbill
  let fb6 ← mapE (fun i => do
    let person ← getElemE watchbill i
    let total_watches : ℚ := ((person.filter (fun w => w != 0)).length : ℚ)
    let ew ← getElemE expected_watch i
    if 1 < |total_watches - ew| then do
      let wsi ← getElemE model.watchstanders i
      pure [("Rule 6 violation: " ++ wsi.name ++ " has watches off the expected value.")]
    else pure ([] : List String)) (List.range watchbill.length)
  -- Rule 9 (lines 158–160)
  let fb9 ← mapE (fun i => do
    let person ← getElemE watchbill i
    if (person.filter (fun w => w != 0)).length = 0 then do
      let wsi ← getElemE model.watchstanders i
      pure [("Rule 9 violation: " ++ wsi.name ++ " has no watches assigned.")]
    else pure ([] : List String)) (List.range watchbill.length)
  pure (0, fb1.flatten ++ fb2.flatten ++ fb3.flatten ++ fb4.flatten ++
           fb5.flatten ++ fb6.flatten ++ fb9.flatten)

/-! ## Concrete fixtures -/

/-- An N-head whose February 2023 vector is all zeros (fully available). -/
def wsIvey : Watchstander :=
  ⟨"CDR IVEY", true, [(PyKey.tup 2023 2, List.replicate 28 0)], 1⟩

/-- February 2023 with the single N-head `wsIvey` on the roster. -/
def febBug : Month :=
  ⟨2023, 2, [wsIvey], [("CDR IVEY", 0)], generate_month_vector 2023 2 [], 28⟩

/-- A regular watchstander with a one-day vector `[4]` (special-liberty
start: available under both the spec counting and the code's `day > 0`). -/
def wsReg : Watchstander := ⟨"A", false, [(PyKey.tup 2023 2, [4])], 1⟩

/-- A one-day month whose calendar is a single WEEKEND (type 2) day, with
the single regular watchstander `wsReg`. -/
def moWeekend : Month := ⟨2023, 2, [wsReg], [("A", 0)], [2], 1⟩

/-- All keys of an availability dict are tuple keys — true of every
watchstander whose vectors were stored via `set_monthly_availability`. -/
def allTupKeys (d : List (PyKey × List Nat)) : Prop :=
  ∀ p ∈ d, ∃ a b, p.1 = PyKey.tup a b

/-! ## Claim C1 — availability fraction used by expected-point allocation -/

/-- C1: the code evaluated at the claim's own scenario.  The claim says the
fraction counts status codes in {0,4,5,6,7,8,9}, so an all-zeros (fully
available) N-head gets fraction 1.0 and expected points 28.0; the allocator
(month.py lines 172–174/198–200) instead counts `day > 0`, giving fraction
0 and expected points 0 for the all-zeros vector. -/
theorem claim_C1_code_eval :
    codeAvailPct (List.replicate 28 0) = 0 ∧
    wsIvey.is_n_head = true ∧
    febBug.calculate_expected_watch_points = [("CDR IVEY", 0)] ∧
    ((0 : ℚ) ≠ 28) := by
  have hfilter : (List.replicate 28 (0 : Nat)).filter (fun d => decide (0 < d)) = [] := by
    decide
  have hpct : codeAvailPct (List.replicate 28 0) = 0 := by
    unfold codeAvailPct
    rw [hfilter]
    norm_num
  have hv : febBug.getVector wsIvey = List.replicate 28 0 := by decide
  have hne : List.replicate 28 (0 : Nat) ≠ [] := by decide
  refine ⟨hpct, rfl, ?_, by norm_num⟩
  show [(wsIvey.name, expectedFor febBug wsIvey)] = [("CDR IVEY", 0)]
  have hnht : nHeadTerm febBug wsIvey = 0 := by
    unfold nHeadTerm
    rw [hv, if_neg hne, hpct, zero_mul]
  have he : expectedFor febBug wsIvey = 0 := by
    have hred : expectedFor febBug wsIvey = nHeadTerm febBug wsIvey := rfl
    rw [hred, hnht]
  rw [he]
  rfl

/-! ## Claim C2 — evaluate_watch_deviations raises on any non-empty roster -/

/-- C2: for every month with a non-empty roster, `evaluate_watch_deviations`
(and hence `get_month_summary`) raises: the loop iterates the dict keys
(strings) and `ws.name` is attribute access on a `str`. -/
theorem claim_C2_raises (mo : Month) (h : mo.watchstanders ≠ []) :
    (∃ e, mo.evaluate_watch_deviations = Except.error e) ∧
    (∃ e, mo.get_month_summary = Except.error e) := by
  match hw : mo.watchstanders with
  | [] => exact absurd hw h
  | w :: t =>
    have h1 : mo.evaluate_watch_deviations =
        Except.error "AttributeError: str object has no attribute name" := by
      unfold Month.evaluate_watch_deviations
      rw [hw]
      rfl
    refine ⟨⟨_, h1⟩,
      ⟨"AttributeError: str object has no attribute name", ?_⟩⟩
    unfold Month.get_month_summary
    rw [h1]
    rfl

/-- C2 witness: the concrete February 2023 roster. -/
theorem claim_C2_witness :
    febBug.watchstanders ≠ [] ∧
    (∃ e, febBug.evaluate_watch_deviations = Except.error e) := by
  have hne : febBug.watchstanders ≠ [] := by decide
  exact ⟨hne, (claim_C2_raises febBug hne).1⟩

/-! ## Claim C3 — the monthly point pool -/

/-- C3: pool values at a single WEEKEND (type 2) day.  The allocator's pool
loop (month.py lines 154–163) adds 36; `calculate_total_watch_points`
(watchbill_model.py lines 164–176) adds 56; the claim's DAY+NIGHT table
(matched by watchstander.py lines 85–94) gives 36+36 = 72. -/
theorem claim_C3_pool_eval :
    total_monthly_points [2] = 36 ∧
    watchbillModelPool [2] = 56 ∧
    watchbillModelPool [1] = 30 ∧
    watchbillModelPool [3] = 30 ∧
    watchstanderPool [2] = 72 ∧
    monthlyPool_spec [2] = 72 ∧
    ((36 : ℚ) ≠ 72) := by
  refine ⟨?_, ?_, ?_, ?_, ?_, ?_, by norm_num⟩ <;>
    norm_num [total_monthly_points, watchbillModelPool, watchstanderPool, monthlyPool_spec,
      vkWeekdayDay, vkWeekdayNight, vkFridayDay, vkWeekendAny, vkSundayNight]

/-! ## Claim C4 — allocator conservation -/

/-- C4 counterexample: a one-day WEEKEND calendar with a single fully
available regular watchstander.  Total weight is 1 > 0 and the remaining
pool is nonnegative, yet the expected points sum to 36 while the spec's
MonthlyPool gives 72 — far outside the 1e-6 tolerance. -/
theorem claim_C4_counterexample :
    0 < moWeekend.total_watch_percentage ∧
    0 ≤ moWeekend.remaining_points ∧
    ((moWeekend.calculate_expected_watch_points).map (fun p => p.2)).sum = 36 ∧
    monthlyPool_spec moWeekend.month_vector = 72 ∧
    ¬(|(36 : ℚ) - 72| ≤ 1 / 1000000) := by
  refine ⟨?_, ?_, ?_, ?_, by norm_num⟩ <;>
    norm_num [Month.total_watch_percentage, Month.remaining_points, Month.n_head_points,
      Month.calculate_expected_watch_points, moWeekend, wsReg, expectedFor, regWeight,
      Month.getVector, codeAvailPct, List.lookup, total_monthly_points, monthlyPool_spec,
      vkWeekendAny]

/-- Pointwise split of one watchstander's expected points into the N-head
part and the regular part, valid when the total weight is positive. -/
theorem expectedFor_split (mo : Month) (ws : Watchstander)
    (hT : 0 < mo.total_watch_percentage) :
    expectedFor mo ws =
      (if ws.is_n_head then nHeadTerm mo ws else 0) +
      (if ws.is_n_head then 0 else regWeight mo ws) / mo.total_watch_percentage
        * mo.remaining_points := by
  unfold expectedFor
  by_cases hn : ws.is_n_head
  · simp [hn]
  · simp only [hn, if_false, Bool.false_eq_true]
    by_cases hv : mo.getVector ws = []
    · simp [hv, regWeight]
    · rw [if_pos ⟨hv, hT⟩]
      unfold regWeight
      rw [if_neg hv]
      ring

/-- Summing the pointwise split over any list of watchstanders. -/
theorem sum_map_expected (mo : Month) (hT : 0 < mo.total_watch_percentage)
    (l : List Watchstander) :
    (l.map (fun ws => expectedFor mo ws)).sum =
      (l.map (fun ws => if ws.is_n_head then nHeadTerm mo ws else 0)).sum +
      (l.map (fun ws => if ws.is_n_head then 0 else regWeight mo ws)).sum
        / mo.total_watch_percentage * mo.remaining_points := by
  induction l with
  | nil => simp
  | cons w t ih =>
    simp only [List.map_cons, List.sum_cons, ih, expectedFor_split mo w hT]
    ring

/-- C4 as amended: with positive total regular weight (and nonnegative
remaining pool as in the claim), the expected points returned by
`Month.calculate_expected_watch_points` sum exactly (in exact rational
arithmetic) to the pool AS THE ALLOCATOR COMPUTES IT (`total_monthly_points`
of month.py lines 154–163, which adds only 36 per WEEKEND day) — not to the
spec's `MonthlyPool`, from which it differs on WEEKEND days (claim C3). -/
theorem claim_C4_conservation (mo : Month)
    (hT : 0 < mo.total_watch_percentage) (hR : 0 ≤ mo.remaining_points) :
    ((mo.calculate_expected_watch_points).map (fun p => p.2)).sum =
      total_monthly_points mo.month_vector := by
  have h1 : (mo.calculate_expected_watch_points).map (fun p => p.2) =
      mo.watchstanders.map (fun ws => expectedFor mo ws) := by
    unfold Month.calculate_expected_watch_points
    rw [List.map_map]
    rfl
  rw [h1, sum_map_expected mo hT]
  show mo.n_head_points +
      mo.total_watch_percentage / mo.total_watch_percentage * mo.remaining_points =
      total_monthly_points mo.month_vector
  rw [div_self hT.ne', one_mul]
  unfold Month.remaining_points
  ring

/-- C4 witness: the one-day WEEKEND month satisfies both hypotheses and its
expected points sum to the allocator's pool. -/
theorem claim_C4_witness :
    0 < moWeekend.total_watch_percentage ∧
    0 ≤ moWeekend.remaining_points ∧
    ((moWeekend.calculate_expected_watch_points).map (fun p => p.2)).sum =
      total_monthly_points moWeekend.month_vector := by
  have h1 : 0 < moWeekend.total_watch_percentage := by
    norm_num [Month.total_watch_percentage, moWeekend, wsReg, regWeight,
      Month.getVector, codeAvailPct, List.lookup]
  have h2 : 0 ≤ moWeekend.remaining_points := by
    norm_num [Month.remaining_points, Month.n_head_points, moWeekend, wsReg,
      total_monthly_points, vkWeekendAny]
  exact ⟨h1, h2, claim_C4_conservation moWeekend h1 h2⟩

/-! ## Claim C9 — the deviation record -/

/-- C9 counterexample: at (expected, actual) = (−1, 0) the record built at
month.py lines 108–109 has percentage 0 although expected is nonzero (the
claim demands deviation/expected×100 = 100), and deviation = −1 ≠ 0 while
percentage = 0, breaking the claimed equivalence. -/
theorem claim_C9_counterexample :
    (deviationRecordQ (-1) 0).1 = -1 ∧
    (deviationRecordQ (-1) 0).2 = 0 ∧
    ((-1 : ℚ) ≠ 0) ∧
    (deviationRecordQ (-1) 0).2 ≠ (deviationRecordQ (-1) 0).1 / (-1) * 100 ∧
    ¬((deviationRecordQ (-1) 0).1 = 0 ↔ (deviationRecordQ (-1) 0).2 = 0) := by
  norm_num [deviationRecordQ]

/-- C9 as amended: deviation = expected − actual exactly; the percentage is
deviation/expected × 100 when expected > 0 and 0 otherwise (also for
negative expected); deviation = 0 always forces percentage = 0, and the
converse holds whenever expected > 0. -/
theorem claim_C9_deviation_record (e a : ℚ) :
    (deviationRecordQ e a).1 = e - a ∧
    (0 < e → (deviationRecordQ e a).2 = (e - a) / e * 100) ∧
    (e ≤ 0 → (deviationRecordQ e a).2 = 0) ∧
    ((deviationRecordQ e a).1 = 0 → (deviationRecordQ e a).2 = 0) ∧
    (0 < e → ((deviationRecordQ e a).1 = 0 ↔ (deviationRecordQ e a).2 = 0)) := by
  refine ⟨rfl, fun h => by simp [deviationRecordQ, h], fun h => by
    simp [deviationRecordQ, not_lt.mpr h], ?_, ?_⟩
  · intro hz
    have hz' : e - a = 0 := hz
    by_cases h : 0 < e
    · simp [deviationRecordQ, h, hz']
    · simp [deviationRecordQ, h]
  · intro h
    constructor
    · intro hz
      have hz' : e - a = 0 := hz
      simp [deviationRecordQ, h, hz']
    · intro hz
      have hz' : (e - a) / e * 100 = 0 := by
        have h2 : (deviationRecordQ e a).2 = (e - a) / e * 100 := by
          simp [deviationRecordQ, h]
        rw [← h2]
        exact hz
      show e - a = 0
      have h100 : (100 : ℚ) ≠ 0 := by norm_num
      have hdiv : (e - a) / e = 0 := (mul_eq_zero.mp hz').resolve_right h100
      rcases div_eq_zero_iff.mp hdiv with h0 | h0
      · exact h0
      · exact absurd h0 h.ne'

/-- C9 witness for the amended statement, at (expected, actual) = (2, 1). -/
theorem claim_C9_witness :
    (deviationRecordQ 2 1).1 = 2 - 1 ∧
    (deviationRecordQ 2 1).2 = (2 - 1) / 2 * 100 ∧
    ((deviationRecordQ 2 1).1 = 0 ↔ (deviationRecordQ 2 1).2 = 0) := by
  have h := claim_C9_deviation_record 2 1
  exact ⟨h.1, h.2.1 (by norm_num), h.2.2.2.2 (by norm_num)⟩

/-! ## Holiday-adjustment lemmas (for claims C6 and C7) -/

/-- The guarded trailing write `v[idx+1] = 2` leaves other cells alone. -/
theorem finalStep_get (u : List Nat) (idx i : Nat)
    (h : idx + 1 < u.length → i ≠ idx + 1) :
    (if idx + 1 < u.length then u.set (idx + 1) 2 else u)[i]? = u[i]? := by
  split
  · next hlt => exact List.getElem?_set_ne (fun hc => h hlt hc.symm)
  · rfl

/-- The guarded trailing write `v[idx+1] = 2` hits cell `idx + 1`. -/
theorem finalStep_get_next (u : List Nat) (idx : Nat) (h : idx + 1 < u.length) :
    (if idx + 1 < u.length then u.set (idx + 1) 2 else u)[idx + 1]? = some 2 := by
  rw [if_pos h]
  exact List.getElem?_set_self h

/-- The guarded leading write `v[idx-1] = val` leaves other cells alone. -/
theorem guardSet_get (v : List Nat) (idx val i : Nat)
    (h : 1 ≤ idx → i ≠ idx - 1) :
    (if 1 ≤ idx then v.set (idx - 1) val else v)[i]? = v[i]? := by
  split
  · next hg => exact List.getElem?_set_ne (fun hc => h hg hc.symm)
  · rfl

/-- The guarded leading write preserves length. -/
theorem guardSet_length (v : List Nat) (idx val : Nat) :
    (if 1 ≤ idx then v.set (idx - 1) val else v).length = v.length := by
  split <;> simp

/-- `stdAdjust` preserves length. -/
theorem stdAdjust_length (v : List Nat) (idx : Nat) :
    (stdAdjust v idx).length = v.length := by
  simp only [stdAdjust]
  repeat' split
  all_goals simp

/-- `tueAdjust` preserves length. -/
theorem tueAdjust_length (v : List Nat) (idx : Nat) :
    (tueAdjust v idx).length = v.length := by
  simp only [tueAdjust]
  repeat' split
  all_goals simp

/-- `stdAdjust` writes 2 at the holiday index. -/
theorem stdAdjust_get_idx (v : List Nat) (idx : Nat) (hidx : idx < v.length) :
    (stdAdjust v idx)[idx]? = some 2 := by
  simp only [stdAdjust]
  rw [finalStep_get _ idx idx (fun _ => by omega)]
  exact List.getElem?_set_self (by rw [guardSet_length]; exact hidx)

/-- `stdAdjust` writes 2 at the following index when it exists. -/
theorem stdAdjust_get_next (v : List Nat) (idx : Nat) (h : idx + 1 < v.length) :
    (stdAdjust v idx)[idx + 1]? = some 2 := by
  simp only [stdAdjust]
  exact finalStep_get_next _ idx (by rw [List.length_set, guardSet_length]; exact h)

/-- `stdAdjust` writes 1 (PRE_WEEKEND) at the preceding index. -/
theorem stdAdjust_get_prev (v : List Nat) (idx : Nat) (h1 : 1 ≤ idx)
    (hidx : idx < v.length) :
    (stdAdjust v idx)[idx - 1]? = some 1 := by
  simp only [stdAdjust]
  rw [finalStep_get _ idx (idx - 1) (fun _ => by omega),
    List.getElem?_set_ne (show idx ≠ idx - 1 by omega), if_pos h1]
  exact List.getElem?_set_self (by omega)

/-- `stdAdjust` leaves every other cell unchanged. -/
theorem stdAdjust_get_other (v : List Nat) (idx i : Nat)
    (h2 : 1 ≤ idx → i ≠ idx - 1) (h3 : i ≠ idx)
    (h4 : idx + 1 < v.length → i ≠ idx + 1) :
    (stdAdjust v idx)[i]? = v[i]? := by
  simp only [stdAdjust]
  rw [finalStep_get _ idx i
      (fun hlt => h4 (by rwa [List.length_set, guardSet_length] at hlt)),
    List.getElem?_set_ne (fun hc => h3 hc.symm)]
  exact guardSet_get v idx 1 i h2

/-- `tueAdjust` writes 2 at the holiday index. -/
theorem tueAdjust_get_idx (v : List Nat) (idx : Nat) (hidx : idx < v.length) :
    (tueAdjust v idx)[idx]? = some 2 := by
  simp only [tueAdjust]
  rw [finalStep_get _ idx idx (fun _ => by omega)]
  exact List.getElem?_set_self (by rw [guardSet_length, guardSet_length]; exact hidx)

/-- `tueAdjust` writes 2 at the following index when it exists. -/
theorem tueAdjust_get_next (v : List Nat) (idx : Nat) (h : idx + 1 < v.length) :
    (tueAdjust v idx)[idx + 1]? = some 2 := by
  simp only [tueAdjust]
  exact finalStep_get_next _ idx
    (by rw [List.length_set, guardSet_length, guardSet_length]; exact h)

/-- `tueAdjust` leaves the preceding cell at 2: the second of its two
writes to `idx - 1` wins. -/
theorem tueAdjust_get_prev (v : List Nat) (idx : Nat) (h1 : 1 ≤ idx)
    (hidx : idx < v.length) :
    (tueAdjust v idx)[idx - 1]? = some 2 := by
  simp only [tueAdjust]
  rw [finalStep_get _ idx (idx - 1) (fun _ => by omega),
    List.getElem?_set_ne (show idx ≠ idx - 1 by omega), if_pos h1]
  exact List.getElem?_set_self (by rw [guardSet_length]; omega)

/-- `tueAdjust` leaves every cell other than `idx-1`, `idx`, `idx+1`
unchanged — in particular the cell two before the holiday. -/
theorem tueAdjust_get_other (v : List Nat) (idx i : Nat)
    (h2 : 1 ≤ idx → i ≠ idx - 1) (h3 : i ≠ idx)
    (h4 : idx + 1 < v.length → i ≠ idx + 1) :
    (tueAdjust v idx)[i]? = v[i]? := by
  simp only [tueAdjust]
  rw [finalStep_get _ idx i
      (fun hlt => h4 (by
        rwa [List.length_set, guardSet_length, guardSet_length] at hlt)),
    List.getElem?_set_ne (fun hc => h3 hc.symm),
    guardSet_get _ idx 2 i h2]
  exact guardSet_get v idx 1 i h2

/-- `applyHoliday` preserves length. -/
theorem applyHoliday_length (v : List Nat) (idx wd : Nat) :
    (applyHoliday v idx wd).length = v.length := by
  unfold applyHoliday
  repeat' split
  all_goals first
    | exact stdAdjust_length v idx
    | exact tueAdjust_length v idx
    | rfl

/-- A holiday step preserves length. -/
theorem holidayStep_length (y m : Int) (v : List Nat) (hh : Int × Nat) :
    (holidayStep y m v hh).length = v.length := by
  unfold holidayStep
  repeat' split
  all_goals first | exact applyHoliday_length v _ _ | rfl

/-- The whole holiday pass preserves length. -/
theorem applyHolidays_length (y m : Int) (hs : List (Int × Nat)) :
    ∀ v : List Nat, (applyHolidays y m hs v).length = v.length := by
  induction hs with
  | nil => intro v; rfl
  | cons hh t ih =>
    intro v
    show (applyHolidays y m t (holidayStep y m v hh)).length = v.length
    rw [ih, holidayStep_length]

/-- `applyHoliday` does not touch a cell outside its write set. -/
theorem applyHoliday_get_other (v : List Nat) (idx wd i : Nat)
    (hw : i ∉ holidayWriteIdxs v.length idx wd) :
    (applyHoliday v idx wd)[i]? = v[i]? := by
  by_cases hall : wd = 3 ∨ wd = 4 ∨ wd = 0 ∨ wd = 1
  · rw [holidayWriteIdxs, if_pos hall] at hw
    have h2 : 1 ≤ idx → i ≠ idx - 1 := fun hg hc => hw (by
      subst hc; simp [hg, List.mem_append])
    have h3 : i ≠ idx := fun hc => hw (by subst hc; simp [List.mem_append])
    have h4 : idx + 1 < v.length → i ≠ idx + 1 := fun hlt hc => hw (by
      subst hc; simp [hlt, List.mem_append])
    rcases hall with rfl | rfl | rfl | rfl
    · exact stdAdjust_get_other v idx i h2 h3 h4
    · exact stdAdjust_get_other v idx i h2 h3 h4
    · exact stdAdjust_get_other v idx i h2 h3 h4
    · exact tueAdjust_get_other v idx i h2 h3 h4
  · push_neg at hall
    unfold applyHoliday
    rw [if_neg hall.1, if_neg hall.2.1, if_neg hall.2.2.1, if_neg hall.2.2.2]

/-- On a cell inside its write set, `applyHoliday` writes a value that
depends only on the holiday position, weekday and vector length, not on the
previous cell contents. -/
theorem applyHoliday_get_written (v w : List Nat) (idx wd i : Nat)
    (hlen : v.length = w.length)
    (hidx : idx < v.length)
    (hw : i ∈ holidayWriteIdxs v.length idx wd) :
    (applyHoliday v idx wd)[i]? = (applyHoliday w idx wd)[i]? := by
  by_cases hall : wd = 3 ∨ wd = 4 ∨ wd = 0 ∨ wd = 1
  · rw [holidayWriteIdxs, if_pos hall] at hw
    have hidxw : idx < w.length := by omega
    have hcases : (1 ≤ idx ∧ i = idx - 1) ∨ i = idx ∨
        (idx + 1 < v.length ∧ i = idx + 1) := by
      rcases List.mem_append.mp hw with hab | hc
      · rcases List.mem_append.mp hab with ha | hb
        · by_cases hg : 1 ≤ idx
          · rw [if_pos hg] at ha
            exact Or.inl ⟨hg, List.mem_singleton.mp ha⟩
          · rw [if_neg hg] at ha
            exact absurd ha (List.not_mem_nil i)
        · exact Or.inr (Or.inl (List.mem_singleton.mp hb))
      · by_cases hn : idx + 1 < v.length
        · rw [if_pos hn] at hc
          exact Or.inr (Or.inr ⟨hn, List.mem_singleton.mp hc⟩)
        · rw [if_neg hn] at hc
          exact absurd hc (List.not_mem_nil i)
    rcases hall with rfl | rfl | rfl | rfl <;>
      [skip; skip; skip; skip] <;>
      rcases hcases with ⟨hg, rfl⟩ | rfl | ⟨hn, rfl⟩
    · rw [show applyHoliday v idx 3 = stdAdjust v idx from rfl,
        show applyHoliday w idx 3 = stdAdjust w idx from rfl,
        stdAdjust_get_prev v idx hg hidx, stdAdjust_get_prev w idx hg hidxw]
    · rw [show applyHoliday v i 3 = stdAdjust v i from rfl,
        show applyHoliday w i 3 = stdAdjust w i from rfl,
        stdAdjust_get_idx v i hidx, stdAdjust_get_idx w i hidxw]
    · rw [show applyHoliday v idx 3 = stdAdjust v idx from rfl,
        show applyHoliday w idx 3 = stdAdjust w idx from rfl,
        stdAdjust_get_next v idx hn, stdAdjust_get_next w idx (by omega)]
    · rw [show applyHoliday v idx 4 = stdAdjust v idx from rfl,
        show applyHoliday w idx 4 = stdAdjust w idx from rfl,
        stdAdjust_get_prev v idx hg hidx, stdAdjust_get_prev w idx hg hidxw]
    · rw [show applyHoliday v i 4 = stdAdjust v i from rfl,
        show applyHoliday w i 4 = stdAdjust w i from rfl,
        stdAdjust_get_idx v i hidx, stdAdjust_get_idx w i hidxw]
    · rw [show applyHoliday v idx 4 = stdAdjust v idx from rfl,
        show applyHoliday w idx 4 = stdAdjust w idx from rfl,
        stdAdjust_get_next v idx hn, stdAdjust_get_next w idx (by omega)]
    · rw [show applyHoliday v idx 0 = stdAdjust v idx from rfl,
        show applyHoliday w idx 0 = stdAdjust w idx from rfl,
        stdAdjust_get_prev v idx hg hidx, stdAdjust_get_prev w idx hg hidxw]
    · rw [show applyHoliday v i 0 = stdAdjust v i from rfl,
        show applyHoliday w i 0 = stdAdjust w i from rfl,
        stdAdjust_get_idx v i hidx, stdAdjust_get_idx w i hidxw]
    · rw [show applyHoliday v idx 0 = stdAdjust v idx from rfl,
        show applyHoliday w idx 0 = stdAdjust w idx from rfl,
        stdAdjust_get_next v idx hn, stdAdjust_get_next w idx (by omega)]
    · rw [show applyHoliday v idx 1 = tueAdjust v idx from rfl,
        show applyHoliday w idx 1 = tueAdjust w idx from rfl,
        tueAdjust_get_prev v idx hg hidx, tueAdjust_get_prev w idx hg hidxw]
    · rw [show applyHoliday v i 1 = tueAdjust v i from rfl,
        show applyHoliday w i 1 = tueAdjust w i from rfl,
        tueAdjust_get_idx v i hidx, tueAdjust_get_idx w i hidxw]
    · rw [show applyHoliday v idx 1 = tueAdjust v idx from rfl,
        show applyHoliday w idx 1 = tueAdjust w idx from rfl,
        tueAdjust_get_next v idx hn, tueAdjust_get_next w idx (by omega)]
  · rw [holidayWriteIdxs, if_neg hall] at hw
    exact absurd hw (List.not_mem_nil i)

/-- One guarded holiday step does not touch cells outside its write set. -/
theorem holidayStep_get_other (y m : Int) (v : List Nat) (hh : Int × Nat)
    (i : Nat) (hw : i ∉ stepWriteIdxs y m v.length hh) :
    (holidayStep y m v hh)[i]? = v[i]? := by
  unfold holidayStep
  unfold stepWriteIdxs at hw
  by_cases h1 : hh.1 = m
  · rw [if_pos h1]
    rw [if_pos h1] at hw
    by_cases h2 : hh.2 - 1 < v.length
    · rw [if_pos h2]
      rw [if_pos h2] at hw
      exact applyHoliday_get_other v (hh.2 - 1) _ i hw
    · rw [if_neg h2]
  · rw [if_neg h1]

/-- One guarded holiday step writes, on its write set, values that do not
depend on the incoming cell contents. -/
theorem holidayStep_get_written (y m : Int) (v w : List Nat) (hh : Int × Nat)
    (i : Nat) (hlen : v.length = w.length)
    (hw : i ∈ stepWriteIdxs y m v.length hh) :
    (holidayStep y m v hh)[i]? = (holidayStep y m w hh)[i]? := by
  unfold holidayStep
  unfold stepWriteIdxs at hw
  by_cases h1 : hh.1 = m
  · rw [if_pos h1]
    rw [if_pos h1] at hw
    by_cases h2 : hh.2 - 1 < v.length
    · rw [if_pos h2] at hw
      rw [if_pos h2, if_pos h1, if_pos (show hh.2 - 1 < w.length by omega)]
      exact applyHoliday_get_written v w (hh.2 - 1) _ i hlen h2 hw
    · rw [if_neg h2] at hw
      exact absurd hw (List.not_mem_nil i)
  · rw [if_neg h1] at hw
    exact absurd hw (List.not_mem_nil i)

/-- The holiday pass does not touch cells outside its accumulated write set. -/
theorem applyHolidays_get_other (y m : Int) (L : Nat) :
    ∀ (hs : List (Int × Nat)) (v : List Nat), v.length = L →
      ∀ i, i ∉ hs.flatMap (stepWriteIdxs y m L) →
        (applyHolidays y m hs v)[i]? = v[i]? := by
  intro hs
  induction hs with
  | nil => intro v _ i _; rfl
  | cons hh t ih =>
    intro v hv i hw
    have hw' : i ∉ stepWriteIdxs y m L hh ∧ i ∉ t.flatMap (stepWriteIdxs y m L) := by
      constructor <;> intro hc <;> exact hw (by
        simp only [List.flatMap_cons, List.mem_append]
        first | exact Or.inl hc | exact Or.inr hc)
    show (applyHolidays y m t (holidayStep y m v hh))[i]? = v[i]?
    rw [ih (holidayStep y m v hh) (by rw [holidayStep_length, hv]) i hw'.2]
    have := holidayStep_get_other y m v hh i (by rw [hv]; exact hw'.1)
    exact this

/-- On its accumulated write set, the holiday pass yields cell values that
are independent of the vector it started from (of the same length): the
last holiday adjustment to write a cell determines it. -/
theorem applyHolidays_get_written (y m : Int) (L : Nat) :
    ∀ (hs : List (Int × Nat)) (v w : List Nat), v.length = L → w.length = L →
      ∀ i, i ∈ hs.flatMap (stepWriteIdxs y m L) →
        (applyHolidays y m hs v)[i]? = (applyHolidays y m hs w)[i]? := by
  intro hs
  induction hs with
  | nil =>
    intro v w _ _ i hw
    exact absurd hw (List.not_mem_nil i)
  | cons hh t ih =>
    intro v w hv hww i hw
    show (applyHolidays y m t (holidayStep y m v hh))[i]? =
      (applyHolidays y m t (holidayStep y m w hh))[i]?
    by_cases hmem : i ∈ t.flatMap (stepWriteIdxs y m L)
    · exact ih (holidayStep y m v hh) (holidayStep y m w hh)
        (by rw [holidayStep_length, hv]) (by rw [holidayStep_length, hww]) i hmem
    · have hstep : i ∈ stepWriteIdxs y m L hh := by
        rcases List.mem_append.mp (by
          rw [← List.flatMap_cons]; exact hw) with h | h
        · exact h
        · exact absurd h hmem
      rw [applyHolidays_get_other y m L t (holidayStep y m v hh)
            (by rw [holidayStep_length, hv]) i hmem,
          applyHolidays_get_other y m L t (holidayStep y m w hh)
            (by rw [holidayStep_length, hww]) i hmem]
      have hv' : i ∈ stepWriteIdxs y m v.length hh := by rw [hv]; exact hstep
      exact holidayStep_get_written y m v w hh i (by omega) hv'

/-- The custom-days-off pass preserves length. -/
theorem applyDaysOff_length (daysOff : List Nat) (v : List Nat) :
    (applyDaysOff daysOff v).length = v.length := by
  simp [applyDaysOff]

/-- The base classification has one entry per day of the month. -/
theorem baseVector_length (y m : Int) :
    (baseVector y m).length = daysInMonth y m := by
  simp [baseVector]

/-! ## Claim C6 — Tuesday federal holidays -/

/-- C6 counterexample: Veterans Day 2025 (November 11, a Tuesday, 0-based
index 10).  The day two before the holiday (index 8, Sunday November 9)
keeps its default POST_WEEKEND code 3 — it is NOT forced to WEEKEND (2) as
the claim states. -/
theorem claim_C6_counterexample :
    pythonWeekday 2025 11 11 = 1 ∧
    ((11 : Int), (11 : Nat)) ∈ federalHolidays 2025 ∧
    (generate_month_vector 2025 11 []).get? 8 = some 3 ∧
    (generate_month_vector 2025 11 []).get? 8 ≠ some 2 := by decide

/-- C6 as amended: the Tuesday-holiday adjustment (weekday code 1, lines
111–118) sets the holiday to WEEKEND, the following day (when inside the
month) to WEEKEND, and the day immediately before — not two before — to
WEEKEND (writing 1 and then overwriting with 2); the day two before the
holiday is left unchanged. -/
theorem claim_C6_tuesday_adjust (v : List Nat) (idx : Nat) (h : idx < v.length) :
    (applyHoliday v idx 1)[idx]? = some 2 ∧
    (idx + 1 < v.length → (applyHoliday v idx 1)[idx + 1]? = some 2) ∧
    (1 ≤ idx → (applyHoliday v idx 1)[idx - 1]? = some 2) ∧
    (2 ≤ idx → (applyHoliday v idx 1)[idx - 2]? = v[idx - 2]?) := by
  have he : applyHoliday v idx 1 = tueAdjust v idx := rfl
  rw [he]
  exact ⟨tueAdjust_get_idx v idx h,
    fun hn => tueAdjust_get_next v idx hn,
    fun hg => tueAdjust_get_prev v idx hg h,
    fun hg => tueAdjust_get_other v idx (idx - 2)
      (fun _ => by omega) (by omega) (fun _ => by omega)⟩

/-- C6 witness: a five-cell vector with the Tuesday holiday at index 2. -/
theorem claim_C6_witness :
    (applyHoliday [0, 0, 0, 0, 0] 2 1)[2]? = some 2 ∧
    (applyHoliday [0, 0, 0, 0, 0] 2 1)[3]? = some 2 ∧
    (applyHoliday [0, 0, 0, 0, 0] 2 1)[1]? = some 2 ∧
    (applyHoliday [0, 0, 0, 0, 0] 2 1)[0]? = ([0, 0, 0, 0, 0] : List Nat)[0]? := by
  have h := claim_C6_tuesday_adjust [0, 0, 0, 0, 0] 2 (by norm_num)
  exact ⟨h.1, h.2.1 (by norm_num), h.2.2.1 (by norm_num), h.2.2.2 (by norm_num)⟩

/-! ## Claim C7 — holiday adjustments override custom days off -/

/-- C7: at every cell written by the federal-holiday pass, the output of
`generate_month_vector` is independent of the custom days-off set: the
holiday loop runs after the custom-days-off loop and writes fixed codes, so
the classification assigned by the holiday adjustment is the one that
appears in the output. -/
theorem claim_C7_holiday_overrides (y m : Int) (daysOff : List Nat) (i : Nat)
    (hi : i ∈ holidayWrites y m) :
    (generate_month_vector y m daysOff)[i]? = (generate_month_vector y m [])[i]? := by
  unfold holidayWrites at hi
  unfold generate_month_vector
  by_cases h2025 : y = 2025 ∧ m = 2
  · rw [if_pos h2025, if_pos h2025]
  · rw [if_neg h2025, if_neg h2025]
    exact applyHolidays_get_written y m (daysInMonth y m) (federalHolidays y)
      (applyDaysOff daysOff (baseVector y m)) (applyDaysOff [] (baseVector y m))
      (by rw [applyDaysOff_length, baseVector_length])
      (by rw [applyDaysOff_length, baseVector_length]) i hi

/-- C7 witness: July 2024, Independence Day on Thursday July 4 (index 3).
Day 3 of the month (index 2) is listed as a custom day off (which alone
would force WEEKEND 2), yet the holiday pass assigns PRE_WEEKEND 1 there,
and the output matches the run without any custom days off. -/
theorem claim_C7_witness :
    (2 : Nat) ∈ holidayWrites 2024 7 ∧
    (generate_month_vector 2024 7 [3])[2]? = (generate_month_vector 2024 7 [])[2]? ∧
    (generate_month_vector 2024 7 [3])[2]? = some 1 := by
  have hmem : (2 : Nat) ∈ holidayWrites 2024 7 := by decide
  exact ⟨hmem, claim_C7_holiday_overrides 2024 7 [3] 2 hmem, by decide⟩

/-! ## Claim C5 — the rule evaluator on a fully-assigned grid -/

/-- The monad law `Except.ok a >>= f = f a`, used to step the embeddings. -/
theorem exceptOkBind {ε α β : Type} (a : α) (f : α → Except ε β) :
    (Except.ok a >>= f : Except ε β) = f a := rfl

/-- An error short-circuits an `Except` bind. -/
theorem exceptErrorBind {ε α β : Type} (e : ε) (f : α → Except ε β) :
    (Except.error e >>= f : Except ε β) = Except.error e := rfl

/-- C5: the code evaluated at the claim's own boundary case.  On a
single-workday calendar with one (regular) watchstander and the grid [[1]]
(every entry a non-NONE shift code), `evaluate_watchbill` raises instead of
returning advisory feedback: rule 6 feeds the grid to
`expected_watch_vector`, every all-assigned row contributes availability 0,
and the division by `command_availability` (watchbill_model.py line 78)
raises ZeroDivisionError. -/
theorem claim_C5_raises_eval :
    evaluate_watchbill ⟨[0], [wsReg]⟩ [[1]] =
      Except.error "ZeroDivisionError: division by zero" := by
  have h1 : monthly_total [0] = Except.ok [22] := by
    norm_num [monthly_total, vkOffDutyHour, vkWorkingHour, mapE, exceptOkBind]
  have h2 : personnel_availability_vector [0] [1] = Except.ok [0] := by
    norm_num [personnel_availability_vector, h1, getElemE, mapE, exceptOkBind,
      List.range_succ]
  have h3 : expected_watch_vector [0] [[1]] =
      Except.error "ZeroDivisionError: division by zero" := by
    norm_num [expected_watch_vector, monthly_total_score, h1, h2, pydiv, mapE,
      exceptOkBind, exceptErrorBind]
  norm_num [evaluate_watchbill, h3, getElemE, wsReg, unavailCode, mapE,
    exceptOkBind, exceptErrorBind, List.range_succ]

/-! ## Claim C8 — eligibility next to a leave-end day -/

/-- A guarded lookup succeeds when the guard implies the index is in range. -/
theorem boolAt_isSome (a : List Nat) (g : Bool) (j t : Nat)
    (h : g = true → j < a.length) : (boolAt a g j t).isSome := by
  unfold boolAt
  cases g with
  | false => simp
  | true =>
    have hj := h rfl
    simp [List.getElem?_eq_getElem hj]

/-- Every per-day eligibility computation of `watchbill_availability`
succeeds when the day index is in range: all sliding-window accesses are
guarded, so no out-of-range access occurs. -/
theorem eligibilityAt_isSome (a : List Nat) (i avail : Nat) (hi : i < a.length) :
    (eligibilityAt a i avail).isSome := by
  unfold eligibilityAt
  by_cases h0 : avail = 1 ∨ avail = 2 ∨ avail = 3 ∨ avail = 4 ∨ avail = 5 ∨ avail = 7
  · simp [h0]
  · obtain ⟨b1, h1⟩ := Option.isSome_iff_exists.mp
      (boolAt_isSome a (0 < i) (i - 1) 3 (fun _ => by omega))
    obtain ⟨b2, h2⟩ := Option.isSome_iff_exists.mp
      (boolAt_isSome a (i + 1 < a.length) (i + 1) 1 (fun h => of_decide_eq_true h))
    obtain ⟨b3, h3⟩ := Option.isSome_iff_exists.mp
      (boolAt_isSome a (0 < i) (i - 1) 6 (fun _ => by omega))
    obtain ⟨b4, h4⟩ := Option.isSome_iff_exists.mp
      (boolAt_isSome a (avail == 0 && decide (i + 1 < a.length)) (i + 1) 4 (fun h => by
        have h' := (Bool.and_eq_true _ _).mp h
        exact of_decide_eq_true h'.2))
    obtain ⟨b5, h5⟩ := Option.isSome_iff_exists.mp
      (boolAt_isSome a (decide (0 < i) && (avail == 0) && decide (i + 1 < a.length))
        (i - 1) 0 (fun _ => by omega))
    obtain ⟨b6, h6⟩ := Option.isSome_iff_exists.mp
      (boolAt_isSome a (decide (0 < i) && (avail == 0) && decide (i + 1 < a.length))
        (i + 1) 0 (fun h => by
          have h' := (Bool.and_eq_true _ _).mp h
          exact of_decide_eq_true h'.2))
    simp only [h0, if_false, h1, h2, h3, h4, h5, h6, Option.bind_eq_bind,
      Option.some_bind]
    repeat' split
    all_goals rfl

/-- A day whose previous day has status 3 (leave-end) is never eligible:
either the current status is itself in the unavailable set (first branch,
code 0), or the `availability[i-1] == 3` disjunct fires (second branch,
code 0). -/
theorem eligibilityAt_prev3 (a : List Nat) (i avail : Nat) (hi0 : 0 < i)
    (hi : i < a.length) (hprev : a.get? (i - 1) = some 3) :
    eligibilityAt a i avail = some 0 := by
  unfold eligibilityAt
  by_cases h0 : avail = 1 ∨ avail = 2 ∨ avail = 3 ∨ avail = 4 ∨ avail = 5 ∨ avail = 7
  · simp [h0]
  · have hprev' : a[i - 1]? = some 3 := by
      rw [← List.get?_eq_getElem?]
      exact hprev
    have hp3 : boolAt a (0 < i) (i - 1) 3 = some true := by
      simp [boolAt, hi0, hprev']
    obtain ⟨b2, h2⟩ := Option.isSome_iff_exists.mp
      (boolAt_isSome a (i + 1 < a.length) (i + 1) 1 (fun h => of_decide_eq_true h))
    simp [h0, hp3, h2]

/-- Successful `mapM` over `Option`, with its pointwise description. -/
theorem mapM_option_spec {α β : Type} (f : α → Option β) :
    ∀ l : List α, (∀ x ∈ l, (f x).isSome) →
      ∃ out, l.mapM f = some out ∧ out.length = l.length ∧
        ∀ k x, l.get? k = some x → out.get? k = f x := by
  intro l
  induction l with
  | nil =>
    intro _
    exact ⟨[], rfl, rfl, fun k x h => by simp at h⟩
  | cons a t ih =>
    intro h
    obtain ⟨b, hb⟩ := Option.isSome_iff_exists.mp (h a (List.mem_cons_self a t))
    obtain ⟨out, hout, hlen, hget⟩ := ih (fun x hx => h x (List.mem_cons_of_mem a hx))
    refine ⟨b :: out, ?_, by simp [hlen], ?_⟩
    · rw [List.mapM_cons, hb, hout]
      rfl
    · intro k x hk
      cases k with
      | zero =>
        simp only [List.get?] at hk
        injection hk with hk
        subst hk
        simp [hb]
      | succ n =>
        simp only [List.get?] at hk ⊢
        exact hget n x hk

/-- C8: for every availability vector, `watchbill_availability` yields a
defined per-day output of the same length with no out-of-range access (all
neighbor accesses are guarded, including at position 0), and any position
whose previous day carries leave-end code 3 is NONE (0). -/
theorem claim_C8_eligibility (a : List Nat) :
    ∃ out, watchbill_availability a = some out ∧ out.length = a.length ∧
      ∀ i, 0 < i → i < a.length → a.get? (i - 1) = some 3 → out.get? i = some 0 := by
  have hsome : ∀ i ∈ List.range a.length,
      ((a.get? i).bind (fun avail => eligibilityAt a i avail)).isSome := by
    intro i hi
    have hlt : i < a.length := List.mem_range.mp hi
    rw [List.get?_eq_get hlt]
    simp only [Option.some_bind]
    exact eligibilityAt_isSome a i _ hlt
  obtain ⟨out, hout, hlen, hget⟩ :=
    mapM_option_spec (fun i => (a.get? i).bind (fun avail => eligibilityAt a i avail))
      (List.range a.length) hsome
  refine ⟨out, hout, by rw [hlen, List.length_range], ?_⟩
  intro i hi0 hi hprev
  have hr : (List.range a.length).get? i = some i := by
    rw [List.get?_eq_getElem?, List.getElem?_range hi]
  have := hget i i hr
  rw [this, List.get?_eq_get hi]
  simp only [Option.some_bind]
  exact eligibilityAt_prev3 a i _ hi0 hi hprev

/-- C8 witness: the vector [0, 3, 0]; position 2 (the day after the
leave-end) is NONE. -/
theorem claim_C8_witness :
    ∃ out, watchbill_availability [0, 3, 0] = some out ∧
      out.length = ([0, 3, 0] : List Nat).length ∧ out.get? 2 = some 0 := by
  obtain ⟨out, h1, h2, h3⟩ := claim_C8_eligibility [0, 3, 0]
  exact ⟨out, h1, h2, h3 2 (by norm_num) (by norm_num) rfl⟩

/-! ## Claim C10 — tuple keys stored, string key looked up -/

/-- A string key never hits a dict whose keys are all tuples. -/
theorem lookup_str_of_allTup (d : List (PyKey × List Nat)) (s : String)
    (h : allTupKeys d) : List.lookup (PyKey.str s) d = none := by
  induction d with
  | nil => rfl
  | cons p t ih =>
    obtain ⟨a, b, hp⟩ := h p (List.mem_cons_self p t)
    have hne : PyKey.str s ≠ p.1 := by
      rw [hp]; intro hc; exact PyKey.noConfusion hc
    have hbeq : (PyKey.str s == p.1) = false := beq_eq_false_iff_ne.mpr hne
    calc List.lookup (PyKey.str s) (p :: t)
        = List.lookup (PyKey.str s) ((p.1, p.2) :: t) := by rw [Prod.mk.eta]
      _ = List.lookup (PyKey.str s) t := by rw [List.lookup_cons, hbeq]
      _ = none := ih (fun q hq => h q (List.mem_cons_of_mem p hq))

/-- C10: a vector stored under the tuple key `(year, month)` is invisible to
`calculate_monthly_availability`, which looks up the string "YYYY-MM": the
result is (0, 0, 0.0) for any stored contents; consequently
`Month.calculate_total_availability` reports 0 available days for every
watchstander whose vectors were stored that way. -/
theorem claim_C10_string_key_miss :
    (∀ (ws : Watchstander) (y m : Int) (v : List Nat) (y2 m2 : Int),
        allTupKeys ws.availability_vectors →
        (ws.set_monthly_availability y m v).calculate_monthly_availability y2 m2
          = (0, 0, 0)) ∧
    (∀ mo : Month, (∀ ws ∈ mo.watchstanders, allTupKeys ws.availability_vectors) →
        ∀ p ∈ mo.calculate_total_availability, p.2 = 0) := by
  constructor
  · intro ws y m v y2 m2 h
    have hall : allTupKeys (ws.set_monthly_availability y m v).availability_vectors := by
      intro p hp
      rcases List.mem_cons.mp hp with hp | hp
      · exact ⟨y, m, by rw [hp]⟩
      · exact h p (List.mem_of_mem_filter hp)
    unfold Watchstander.calculate_monthly_availability
    rw [lookup_str_of_allTup _ _ hall]
  · intro mo h p hp
    obtain ⟨ws, hws, rfl⟩ := List.mem_map.mp hp
    show (ws.calculate_monthly_availability mo.year mo.month).1 = 0
    unfold Watchstander.calculate_monthly_availability
    rw [lookup_str_of_allTup _ _ (h ws hws)]

/-- C10 witness: a fresh watchstander, vector stored for January 2023 and
read back for January 2023. -/
theorem claim_C10_witness :
    ((⟨"A", false, [], 1⟩ : Watchstander).set_monthly_availability 2023 1
        (List.replicate 31 0)).calculate_monthly_availability 2023 1 = (0, 0, 0) := by
  exact claim_C10_string_key_miss.1 ⟨"A", false, [], 1⟩ 2023 1 (List.replicate 31 0)
    2023 1 (fun p hp => absurd hp (List.not_mem_nil p))
